import Mathlib

/-!
Verification of the data-lake ETL pipeline (`src/etl.py`).

The pipeline reads a song catalog and an activity log (both JSON), filters the
log to `page == "NextSong"` events, builds four deduplicated dimension tables
(`songs`, `artists`, `users`, `time`) with `select distinct on (key)` queries,
and builds the `songplays` fact table by assigning
`F.monotonically_increasing_id()` per filtered event and inner-joining the raw
catalog on `artist = artist_name AND song = title AND length = duration`.

The embedding below models the record streams as Lean lists in ingestion
order, string columns as `String`, the float `duration`/`length` columns as
`Rat` (the join compares them for exact equality, which `Rat` preserves), and
the timestamp decomposition of `datetime.fromtimestamp` with an explicit
local-time-zone offset parameter `o` (in seconds), since the Python code
decomposes epoch timestamps in the machine's local time zone.
-/

/-- One catalog record, as read from a `song_data` JSON file (`src/etl.py`). -/
structure CatalogRecord where
  song_id : String
  title : String
  artist_id : String
  artist_name : String
  artist_location : String
  artist_latitude : Option Rat
  artist_longitude : Option Rat
  year : Int
  duration : Rat
deriving DecidableEq

/-- One activity-log record, as read from a `log_data` JSON file. -/
structure EventRecord where
  ts : Nat
  page : String
  userId : String
  firstName : String
  lastName : String
  gender : String
  level : String
  song : String
  artist : String
  length : Rat
  sessionId : Nat
  location : String
  userAgent : String
deriving DecidableEq

/-! ### Calendar arithmetic

`datetime.fromtimestamp(x/1000.0)` decomposes an epoch instant into proleptic
Gregorian calendar fields in the machine's local time zone.  We embed that as
exact integer arithmetic on `localSecs o ts = ts / 1000 + o` where `o` is the
machine's UTC offset in seconds.  The year/month split is written with an
explicit fuel argument (structurally recursive, so the kernel can evaluate it
on concrete inputs); fuel `days` is always enough because each step consumes
at least 365 days. -/

/-- Gregorian leap-year test. -/
def isLeap (y : Nat) : Bool := y % 4 == 0 && (y % 100 != 0 || y % 400 == 0)

/-- Number of days in year `y`. -/
def daysInYear (y : Nat) : Nat := if isLeap y then 366 else 365

/-- Number of days in month `m` of year `y`. -/
def daysInMonth (y m : Nat) : Nat :=
  if m = 2 then (if isLeap y then 29 else 28)
  else if m = 4 ∨ m = 6 ∨ m = 9 ∨ m = 11 then 30 else 31

/-- Split a day count (days since 1970-01-01) into (year, day-of-year),
counting down through whole years; `fuel`-driven structural recursion. -/
def yearSplitF : Nat → Nat → Nat → Nat × Nat
  | 0, y, days => (y, days)
  | fuel + 1, y, days =>
    if days < daysInYear y then (y, days)
    else yearSplitF fuel (y + 1) (days - daysInYear y)

/-- (year, 0-based day-of-year) of the day `days` days after 1970-01-01. -/
def yearSplit (days : Nat) : Nat × Nat := yearSplitF days 1970 days

/-- Split a 0-based day-of-year of year `y` into (month, 0-based day-of-month). -/
def monthSplitF : Nat → Nat → Nat → Nat → Nat × Nat
  | 0, _, m, days => (m, days)
  | fuel + 1, y, m, days =>
    if days < daysInMonth y m then (m, days)
    else monthSplitF fuel y (m + 1) (days - daysInMonth y m)

/-- (month, 0-based day-of-month) for day-of-year `days` in year `y`. -/
def monthSplit (y days : Nat) : Nat × Nat := monthSplitF days y 1 days

/-- Sum of `daysInYear` over `n` consecutive years starting at `a`. -/
def yearDaysF : Nat → Nat → Nat
  | 0, _ => 0
  | n + 1, a => daysInYear a + yearDaysF n (a + 1)

/-- Sum of `daysInYear` over years `a, a+1, ..., b-1`. -/
def yearDays (a b : Nat) : Nat := yearDaysF (b - a) a

/-- Sum of `daysInMonth y` over `n` consecutive months starting at `a`. -/
def monthDaysF : Nat → Nat → Nat → Nat
  | 0, _, _ => 0
  | n + 1, y, a => daysInMonth y a + monthDaysF n y (a + 1)

/-- Sum of `daysInMonth y` over months `a, a+1, ..., b-1`. -/
def monthDays (y a b : Nat) : Nat := monthDaysF (b - a) y a

/-- Days since 1970-01-01 of the calendar date `(y, m, d)` (`d` 1-based). -/
def daysFromCivil (y m d : Nat) : Nat := yearDays 1970 y + monthDays y 1 m + (d - 1)

/-- Full English weekday name for a Monday-based index (`strftime("%A")`). -/
def weekdayName : Nat → String
  | 0 => "Monday"
  | 1 => "Tuesday"
  | 2 => "Wednesday"
  | 3 => "Thursday"
  | 4 => "Friday"
  | 5 => "Saturday"
  | _ => "Sunday"

/-- Local-clock seconds of the epoch-millisecond timestamp `ts` on a machine
whose UTC offset is `o` seconds (`datetime.fromtimestamp(ts/1000.0)`). -/
def localSecs (o : Int) (ts : Nat) : Int := (ts / 1000 : Nat) + o

/-- The `start_time` column: the local instant at second resolution.  The code
renders it with `strftime("%Y-%m-%d %H:%M:%S")`, which is an injective
rendering of this value, so we keep the canonical integer form. -/
def startTime (o : Int) (ts : Nat) : Nat := (localSecs o ts).toNat

/-- One row of the `time` table (`src/etl.py` lines 129-160). -/
structure TimeRow where
  start_time : Nat
  hour : Nat
  day : Nat
  week : Nat
  month : Nat
  year : Nat
  weekday : String
deriving DecidableEq

/-- The seven per-event columns built by the `get_datetime`/`get_hour`/...
UDFs, all decomposing `ts` with `datetime.fromtimestamp(ts/1000.0)` in the
machine-local time zone of offset `o`.  `week` is `strftime("%W")` (Monday
as first day, days before the year's first Monday in week 0). -/
def timeRow (o : Int) (ts : Nat) : TimeRow :=
  let lsec := startTime o ts
  let days := lsec / 86400
  let sod := lsec % 86400
  let y := (yearSplit days).1
  let doy := (yearSplit days).2
  let m := (monthSplit y doy).1
  let d0 := (monthSplit y doy).2
  let wd := (days + 3) % 7
  { start_time := lsec, hour := sod / 3600, day := d0 + 1,
    week := (doy + 7 - wd) / 7, month := m, year := y, weekday := weekdayName wd }

/-- Modelled from the spec: the round-trip recombination of the
`(year, month, day, hour)` fields back into an epoch-second timestamp (the
source has no such operation; the spec's round-trip property defines it). -/
def recombine (o : Int) (y m d hh : Nat) : Int :=
  (daysFromCivil y m d : Int) * 86400 + (hh : Int) * 3600 - o

/-! ### Deduplication (`select distinct on (key) ...`)

Each dimension query keeps one row per key.  `distinctOn` is the first-seen
representative over the list's ingestion order; `IsDistinctOnContract` is the
weaker contract the source's query actually guarantees (one arbitrary row per
key group, no selection or ordering promise). -/

/-- Keep the first row of each key group, skipping rows whose key is in `seen`. -/
def distinctOnAux [DecidableEq κ] (key : α → κ) : List κ → List α → List α
  | _, [] => []
  | seen, x :: xs =>
    if key x ∈ seen then distinctOnAux key seen xs
    else x :: distinctOnAux key (key x :: seen) xs

/-- First-seen deduplication by `key`, preserving ingestion order. -/
def distinctOn [DecidableEq κ] (key : α → κ) (l : List α) : List α :=
  distinctOnAux key [] l

/-- What the source's `select distinct on (key)` guarantees about its output:
every output row comes from the input, keys are pairwise distinct, and every
input key is represented.  Which row of a key group is kept — and in what
order the groups appear — is unspecified. -/
def IsDistinctOnContract (key : α → κ) (inp out : List α) : Prop :=
  (∀ r ∈ out, r ∈ inp) ∧ (out.map key).Nodup ∧ ∀ r ∈ inp, ∃ s ∈ out, key s = key r

/-! ### Dimension tables -/

/-- One row of the `songs` table (`select ... song_id, title, artist_id, year,
duration`). -/
structure SongRow where
  song_id : String
  title : String
  artist_id : String
  year : Int
  duration : Rat
deriving DecidableEq

/-- Projection of a catalog record onto the `songs` columns. -/
def toSongRow (c : CatalogRecord) : SongRow :=
  { song_id := c.song_id, title := c.title, artist_id := c.artist_id,
    year := c.year, duration := c.duration }

/-- The `songs` table: `select distinct on (song_id) ...` over the catalog. -/
def songs_table (catalog : List CatalogRecord) : List SongRow :=
  (distinctOn (fun c => c.song_id) catalog).map toSongRow

/-- One row of the `artists` table. -/
structure ArtistRow where
  artist_id : String
  artist_name : String
  artist_location : String
  artist_latitude : Option Rat
  artist_longitude : Option Rat
deriving DecidableEq

/-- Projection of a catalog record onto the `artists` columns. -/
def toArtistRow (c : CatalogRecord) : ArtistRow :=
  { artist_id := c.artist_id, artist_name := c.artist_name,
    artist_location := c.artist_location, artist_latitude := c.artist_latitude,
    artist_longitude := c.artist_longitude }

/-- The `artists` table: `select distinct on (artist_id) ...` over the catalog. -/
def artists_table (catalog : List CatalogRecord) : List ArtistRow :=
  (distinctOn (fun c => c.artist_id) catalog).map toArtistRow

/-- The `page == "NextSong"` filter (`df = df[df["page"]=="NextSong"]`). -/
def filterNextSong (events : List EventRecord) : List EventRecord :=
  events.filter (fun e => e.page == "NextSong")

/-- One row of the `users` table. -/
structure UserRow where
  userId : String
  firstName : String
  lastName : String
  gender : String
  level : String
deriving DecidableEq

/-- Projection of an event onto the `users` columns. -/
def toUserRow (e : EventRecord) : UserRow :=
  { userId := e.userId, firstName := e.firstName, lastName := e.lastName,
    gender := e.gender, level := e.level }

/-- The `users` table: `select distinct on (userId) ...` over filtered events. -/
def users_table (events : List EventRecord) : List UserRow :=
  (distinctOn (fun e => e.userId) (filterNextSong events)).map toUserRow

/-- The `time` table: per-event decomposition of `ts`, then
`select distinct on (start_time) ...`. -/
def time_table (o : Int) (events : List EventRecord) : List TimeRow :=
  distinctOn (fun t => t.start_time) ((filterNextSong events).map (fun e => timeRow o e.ts))

/-! ### Songplays fact table -/

/-- The join condition of the songplays query:
`sp.artist = s.artist_name and sp.song = s.title and sp.length = s.duration`. -/
def joinCond (e : EventRecord) (c : CatalogRecord) : Bool :=
  e.artist == c.artist_name && e.song == c.title && e.length == c.duration

/-- One row of the `songplays` table. -/
structure SongplayRow where
  songplay_id : Nat
  start_time : Nat
  user_id : String
  level : String
  song_id : String
  artist_id : String
  session_id : Nat
  location : String
  user_agent : String
  year : Nat
  month : Nat
deriving DecidableEq

/-- The projection of the songplays query for event `e` (holding id `i`)
joined with catalog row `c`; `year`/`month`/`start_time` are the event's
decomposed-timestamp columns. -/
def mkSongplay (o : Int) (i : Nat) (e : EventRecord) (c : CatalogRecord) : SongplayRow :=
  { songplay_id := i, start_time := (timeRow o e.ts).start_time,
    user_id := e.userId, level := e.level, song_id := c.song_id,
    artist_id := c.artist_id, session_id := e.sessionId, location := e.location,
    user_agent := e.userAgent, year := (timeRow o e.ts).year,
    month := (timeRow o e.ts).month }

/-- `withColumn('songplay_id', F.monotonically_increasing_id())`: pair each
filtered event with a strictly increasing id in row order, starting at `i`. -/
def assignIds (i : Nat) : List EventRecord → List (Nat × EventRecord)
  | [] => []
  | e :: es => (i, e) :: assignIds (i + 1) es

/-- The inner join of id-carrying events against the raw catalog, event-major
in ingestion order. -/
def joinAll (o : Int) (catalog : List CatalogRecord) : List (Nat × EventRecord) → List SongplayRow
  | [] => []
  | (i, e) :: rest =>
    (catalog.filter (joinCond e)).map (mkSongplay o i e) ++ joinAll o catalog rest

/-- The `songplays` fact table: filter to NextSong events, assign
`songplay_id` per event, inner-join the raw (unfiltered, undeduplicated)
catalog on `(artist_name, title, duration)`. -/
def songplays_table (o : Int) (catalog : List CatalogRecord) (events : List EventRecord) :
    List SongplayRow :=
  joinAll o catalog (assignIds 0 (filterNextSong events))

/-! ### Readers

`process_song_data`/`process_log_data` glob the input tree and hand every
file to one `spark.read.json` call with no per-file error handling: an
unreadable file fails the whole read, and nothing in the source counts or
reports skipped files.  A file is modelled as `some records` (readable) or
`none` (unreadable/malformed). -/

/-- The source's reader: one bulk read over all discovered files; any
unreadable file aborts the read (no skip, no skip count). -/
def readJsonFiles (files : List (Option (List α))) : Except Unit (List α) :=
  if files.all (fun f => f.isSome) then
    Except.ok (files.foldr (fun f acc => f.getD [] ++ acc) [])
  else Except.error ()

/-- Modelled from the spec: the skip-and-count reader of §4.1/§4.2, which is
missing from `src/etl.py` — skip each unreadable/malformed file, keep going,
and report how many files were skipped. -/
def readFilesSkip (files : List (Option (List α))) : List α × Nat :=
  files.foldr
    (fun f acc =>
      match f with
      | some rs => (rs ++ acc.1, acc.2)
      | none => (acc.1, acc.2 + 1))
    ([], 0)

/-! ### Concrete sample data (the spec's end-to-end example and variants) -/

/-- The spec's example catalog record. -/
def catFoo : CatalogRecord :=
  { song_id := "S1", title := "Foo", artist_id := "A1", artist_name := "Artist",
    artist_location := "NYC", artist_latitude := none, artist_longitude := none,
    year := 2000, duration := mkRat 421 2 }

/-- A second catalog record with the same `(artist_name, title, duration)`
join key as `catFoo` but a different `song_id`. -/
def catFoo2 : CatalogRecord := { catFoo with song_id := "S2", year := 2001 }

/-- The spec's example play event, matching `catFoo` exactly. -/
def evFoo : EventRecord :=
  { ts := 1541121934796, page := "NextSong", userId := "10", firstName := "Jane",
    lastName := "Doe", gender := "F", level := "free", song := "Foo",
    artist := "Artist", length := mkRat 421 2, sessionId := 139, location := "NYC",
    userAgent := "ua" }

/-- An event like `evFoo` whose `length` differs from `catFoo.duration` by a
nonzero amount. -/
def evFooOff : EventRecord := { evFoo with length := mkRat 2106 10 }

/-- A NextSong event at epoch millisecond 1000 (second 1). -/
def evT1 : EventRecord := { evFoo with ts := 1000 }

/-- A NextSong event at epoch millisecond 1500: a distinct `ts`, less than one
second after `evT1`, inside the same calendar second. -/
def evT2 : EventRecord := { evFoo with ts := 1500 }

/-! ### Calendar lemmas -/

theorem daysInYear_ge (y : Nat) : 365 ≤ daysInYear y := by
  unfold daysInYear; split <;> omega

theorem daysInMonth_pos (y m : Nat) : 0 < daysInMonth y m := by
  unfold daysInMonth
  split
  · split <;> omega
  · split <;> omega

theorem yearDays_self (a : Nat) : yearDays a a = 0 := by
  simp [yearDays, yearDaysF]

theorem yearDays_step (a b : Nat) (h : a < b) :
    yearDays a b = daysInYear a + yearDays (a + 1) b := by
  have hb : b - a = (b - (a + 1)) + 1 := by omega
  rw [yearDays, hb, yearDaysF, yearDays]

theorem monthDays_self (y a : Nat) : monthDays y a a = 0 := by
  simp [monthDays, monthDaysF]

theorem monthDays_step (y a b : Nat) (h : a < b) :
    monthDays y a b = daysInMonth y a + monthDays y (a + 1) b := by
  have hb : b - a = (b - (a + 1)) + 1 := by omega
  rw [monthDays, hb, monthDaysF, monthDays]

theorem yearSplitF_fst_ge (fuel y days : Nat) : y ≤ (yearSplitF fuel y days).1 := by
  induction fuel generalizing y days with
  | zero => simp [yearSplitF]
  | succ n ih =>
    rw [yearSplitF]
    split
    · simp
    · exact Nat.le_of_succ_le (ih (y + 1) (days - daysInYear y))

theorem monthSplitF_fst_ge (fuel y m days : Nat) : m ≤ (monthSplitF fuel y m days).1 := by
  induction fuel generalizing m days with
  | zero => simp [monthSplitF]
  | succ n ih =>
    rw [monthSplitF]
    split
    · simp
    · exact Nat.le_of_succ_le (ih (m + 1) (days - daysInMonth y m))

theorem yearSplitF_sum (fuel y days : Nat) (h : days ≤ fuel) :
    yearDays y (yearSplitF fuel y days).1 + (yearSplitF fuel y days).2 = days := by
  induction fuel generalizing y days with
  | zero =>
    have : days = 0 := by omega
    subst this
    simp [yearSplitF, yearDays_self]
  | succ n ih =>
    rw [yearSplitF]
    split
    · simp [yearDays_self]
    · have hge := daysInYear_ge y
      have hlt : ¬ days < daysInYear y := by assumption
      have h1 : days - daysInYear y ≤ n := by omega
      have h2 := ih (y + 1) (days - daysInYear y) h1
      have h3 : y < (yearSplitF n (y + 1) (days - daysInYear y)).1 :=
        Nat.lt_of_lt_of_le (Nat.lt_succ_self y) (yearSplitF_fst_ge n (y + 1) (days - daysInYear y))
      rw [yearDays_step y _ h3]
      omega

theorem monthSplitF_sum (fuel y m days : Nat) (h : days ≤ fuel) :
    monthDays y m (monthSplitF fuel y m days).1 + (monthSplitF fuel y m days).2 = days := by
  induction fuel generalizing m days with
  | zero =>
    have : days = 0 := by omega
    subst this
    simp [monthSplitF, monthDays_self]
  | succ n ih =>
    rw [monthSplitF]
    split
    · simp [monthDays_self]
    · have hge := daysInMonth_pos y m
      have hlt : ¬ days < daysInMonth y m := by assumption
      have h1 : days - daysInMonth y m ≤ n := by omega
      have h2 := ih (m + 1) (days - daysInMonth y m) h1
      have h3 : m < (monthSplitF n y (m + 1) (days - daysInMonth y m)).1 :=
        Nat.lt_of_lt_of_le (Nat.lt_succ_self m)
          (monthSplitF_fst_ge n y (m + 1) (days - daysInMonth y m))
      rw [monthDays_step y m _ h3]
      omega

theorem yearSplit_sum (days : Nat) :
    yearDays 1970 (yearSplit days).1 + (yearSplit days).2 = days :=
  yearSplitF_sum days 1970 days (Nat.le_refl days)

theorem monthSplit_sum (y days : Nat) :
    monthDays y 1 (monthSplit y days).1 + (monthSplit y days).2 = days :=
  monthSplitF_sum days y 1 days (Nat.le_refl days)

theorem timeRow_start_time (o : Int) (ts : Nat) :
    (timeRow o ts).start_time = startTime o ts := rfl

theorem timeRow_year (o : Int) (ts : Nat) :
    (timeRow o ts).year = (yearSplit (startTime o ts / 86400)).1 := rfl

theorem timeRow_month (o : Int) (ts : Nat) :
    (timeRow o ts).month =
      (monthSplit (yearSplit (startTime o ts / 86400)).1
        (yearSplit (startTime o ts / 86400)).2).1 := rfl

theorem timeRow_day (o : Int) (ts : Nat) :
    (timeRow o ts).day =
      (monthSplit (yearSplit (startTime o ts / 86400)).1
        (yearSplit (startTime o ts / 86400)).2).2 + 1 := rfl

theorem timeRow_hour (o : Int) (ts : Nat) :
    (timeRow o ts).hour = startTime o ts % 86400 / 3600 := rfl

/-- Recomposing the `(year, month, day)` fields of the decomposition of any
day count returns that day count. -/
theorem daysFromCivil_timeRow (o : Int) (ts : Nat) :
    daysFromCivil (timeRow o ts).year (timeRow o ts).month (timeRow o ts).day =
      startTime o ts / 86400 := by
  rw [timeRow_year, timeRow_month, timeRow_day, daysFromCivil, Nat.add_sub_cancel]
  rw [Nat.add_assoc, monthSplit_sum, yearSplit_sum]

/-! ### Deduplication lemmas -/

theorem distinctOnAux_map_key [DecidableEq κ] (key : α → κ) (seen : List κ) (l : List α) :
    (distinctOnAux key seen l).map key = distinctOnAux id seen (l.map key) := by
  induction l generalizing seen with
  | nil => rfl
  | cons x xs ih =>
    rw [List.map_cons, distinctOnAux, distinctOnAux]
    by_cases hx : key x ∈ seen
    · simp only [hx, if_pos, id_eq]
      exact ih seen
    · simp only [hx, if_neg, not_false_iff, id_eq, List.map_cons]
      rw [ih (key x :: seen)]

theorem distinctOnAux_nodup [DecidableEq κ] (key : α → κ) (seen : List κ) (l : List α) :
    ((distinctOnAux key seen l).map key).Nodup ∧
      ∀ k ∈ (distinctOnAux key seen l).map key, k ∉ seen := by
  induction l generalizing seen with
  | nil => simp [distinctOnAux]
  | cons x xs ih =>
    rw [distinctOnAux]
    by_cases hx : key x ∈ seen
    · simpa [hx] using ih seen
    · have ihx := ih (key x :: seen)
      simp only [hx, if_neg, not_false_iff, List.map_cons, List.nodup_cons]
      refine ⟨⟨fun hmem => ?_, ihx.1⟩, ?_⟩
      · exact (ihx.2 (key x) hmem) (List.mem_cons_self _ _)
      · intro k hk
        rcases List.mem_cons.mp hk with hk1 | hk2
        · subst hk1; exact hx
        · intro hks
          exact (ihx.2 k hk2) (List.mem_cons_of_mem _ hks)

/-- Keys of the first-seen dedup are pairwise distinct. -/
theorem distinctOn_map_key_nodup [DecidableEq κ] (key : α → κ) (l : List α) :
    ((distinctOn key l).map key).Nodup :=
  (distinctOnAux_nodup key [] l).1

theorem distinctOnAux_countP [DecidableEq κ] (key : α → κ) (k : κ) (seen : List κ)
    (l : List α) :
    (distinctOnAux key seen l).countP (fun r => key r == k) =
      if k ∈ seen then 0 else if k ∈ l.map key then 1 else 0 := by
  induction l generalizing seen with
  | nil =>
    simp only [distinctOnAux, List.countP_nil, List.map_nil, List.not_mem_nil, if_false]
    split <;> rfl
  | cons x xs ih =>
    rw [distinctOnAux]
    by_cases hx : key x ∈ seen
    · rw [if_pos hx, ih seen]
      by_cases hks : k ∈ seen
      · simp [hks]
      · have hkx : k ≠ key x := fun h => hks (h ▸ hx)
        simp [hks, List.mem_cons, hkx]
    · rw [if_neg hx, List.countP_cons, ih (key x :: seen)]
      by_cases hkx : key x = k
      · subst hkx
        simp [hx, List.mem_cons]
      · have : (key x == k) = false := by simp [hkx]
        simp only [this, Bool.false_eq_true, if_false, Nat.add_zero, List.mem_cons,
          List.map_cons]
        have hkx2 : k ≠ key x := fun h => hkx h.symm
        by_cases hks : k ∈ seen
        · simp [hks, hkx2]
        · simp [hks, hkx2]

/-- Exactly-one-row-per-present-key for the first-seen dedup. -/
theorem distinctOn_countP [DecidableEq κ] (key : α → κ) (k : κ) (l : List α) :
    (distinctOn key l).countP (fun r => key r == k) =
      if k ∈ l.map key then 1 else 0 := by
  rw [distinctOn, distinctOnAux_countP]
  simp

/-! ### Join lemmas -/

theorem joinAll_length (o : Int) (catalog : List CatalogRecord) (es : List EventRecord)
    (n : Nat) :
    (joinAll o catalog (assignIds n es)).length =
      (es.map (fun e => (catalog.filter (joinCond e)).length)).sum := by
  induction es generalizing n with
  | nil => rfl
  | cons e es ih =>
    rw [assignIds, joinAll, List.length_append, List.length_map, List.map_cons,
      List.sum_cons, ih (n + 1)]

theorem mem_joinAll_id_ge (o : Int) (catalog : List CatalogRecord) (es : List EventRecord)
    (n : Nat) (r : SongplayRow) (hr : r ∈ joinAll o catalog (assignIds n es)) :
    n ≤ r.songplay_id := by
  induction es generalizing n with
  | nil => simp [assignIds, joinAll] at hr
  | cons e es ih =>
    rw [assignIds, joinAll] at hr
    rcases List.mem_append.mp hr with h1 | h2
    · rcases List.mem_map.mp h1 with ⟨c, _, hc⟩
      subst hc
      exact Nat.le_refl n
    · exact Nat.le_of_succ_le (ih (n + 1) h2)

theorem mem_assignIds_ge (es : List EventRecord) (n i : Nat) (e : EventRecord)
    (h : (i, e) ∈ assignIds n es) : n ≤ i := by
  induction es generalizing n with
  | nil => simp [assignIds] at h
  | cons e' es ih =>
    rw [assignIds] at h
    rcases List.mem_cons.mp h with h1 | h2
    · simp only [Prod.mk.injEq] at h1
      exact h1.1.ge
    · exact Nat.le_of_succ_le (ih (n + 1) h2)

theorem pairwise_le_of_all_eq {l : List Nat} {n : Nat} (h : ∀ x ∈ l, x = n) :
    l.Pairwise (· ≤ ·) := by
  induction l with
  | nil => exact List.Pairwise.nil
  | cons a t ih =>
    refine List.Pairwise.cons (fun b hb => ?_) (ih fun x hx => h x (List.mem_cons_of_mem _ hx))
    rw [h a (List.mem_cons_self _ _), h b (List.mem_cons_of_mem _ hb)]

theorem pairwise_of_length_le_one {R : Nat → Nat → Prop} {l : List Nat}
    (h : l.length ≤ 1) : l.Pairwise R := by
  match l with
  | [] => exact List.Pairwise.nil
  | [a] => exact List.pairwise_singleton R a
  | a :: b :: t => simp at h

theorem block_id_eq (o : Int) (n : Nat) (e : EventRecord) (catalog : List CatalogRecord)
    (x : Nat)
    (hx : x ∈ ((catalog.filter (joinCond e)).map (mkSongplay o n e)).map
        (fun r => r.songplay_id)) :
    x = n := by
  rw [List.map_map] at hx
  rcases List.mem_map.mp hx with ⟨c, _, hc⟩
  exact hc.symm

theorem joinAll_ids_pairwise_le (o : Int) (catalog : List CatalogRecord)
    (es : List EventRecord) (n : Nat) :
    ((joinAll o catalog (assignIds n es)).map (fun r => r.songplay_id)).Pairwise (· ≤ ·) := by
  induction es generalizing n with
  | nil => exact List.Pairwise.nil
  | cons e es ih =>
    rw [assignIds, joinAll, List.map_append]
    refine List.pairwise_append.mpr ⟨?_, ih (n + 1), ?_⟩
    · exact pairwise_le_of_all_eq (block_id_eq o n e catalog)
    · intro a ha b hb
      rw [block_id_eq o n e catalog a ha]
      rcases List.mem_map.mp hb with ⟨r, hr, hrb⟩
      subst hrb
      exact Nat.le_of_succ_le (mem_joinAll_id_ge o catalog es (n + 1) r hr)

theorem joinAll_ids_pairwise_lt (o : Int) (catalog : List CatalogRecord)
    (es : List EventRecord) (n : Nat)
    (h : ∀ e ∈ es, (catalog.filter (joinCond e)).length ≤ 1) :
    ((joinAll o catalog (assignIds n es)).map (fun r => r.songplay_id)).Pairwise (· < ·) := by
  induction es generalizing n with
  | nil => exact List.Pairwise.nil
  | cons e es ih =>
    rw [assignIds, joinAll, List.map_append]
    refine List.pairwise_append.mpr
      ⟨?_, ih (n + 1) (fun e' he' => h e' (List.mem_cons_of_mem _ he')), ?_⟩
    · apply pairwise_of_length_le_one
      rw [List.length_map, List.length_map]
      exact h e (List.mem_cons_self _ _)
    · intro a ha b hb
      rw [block_id_eq o n e catalog a ha]
      rcases List.mem_map.mp hb with ⟨r, hr, hrb⟩
      subst hrb
      exact mem_joinAll_id_ge o catalog es (n + 1) r hr

theorem block_filter_id_self (o : Int) (n : Nat) (e : EventRecord)
    (catalog : List CatalogRecord) :
    ((catalog.filter (joinCond e)).map (mkSongplay o n e)).filter
        (fun r => r.songplay_id == n) =
      (catalog.filter (joinCond e)).map (mkSongplay o n e) := by
  apply List.filter_eq_self.mpr
  intro r hr
  rcases List.mem_map.mp hr with ⟨c, _, hc⟩
  subst hc
  simp [mkSongplay]

theorem block_filter_id_ne (o : Int) (n i : Nat) (e : EventRecord)
    (catalog : List CatalogRecord) (hne : i ≠ n) :
    ((catalog.filter (joinCond e)).map (mkSongplay o n e)).filter
        (fun r => r.songplay_id == i) = [] := by
  apply List.filter_eq_nil_iff.mpr
  intro r hr
  rcases List.mem_map.mp hr with ⟨c, _, hc⟩
  subst hc
  simp [mkSongplay, Ne.symm hne]

theorem joinAll_filter_id_lt (o : Int) (catalog : List CatalogRecord)
    (es : List EventRecord) (n i : Nat) (hlt : i < n) :
    (joinAll o catalog (assignIds n es)).filter (fun r => r.songplay_id == i) = [] := by
  apply List.filter_eq_nil_iff.mpr
  intro r hr
  have := mem_joinAll_id_ge o catalog es n r hr
  simp only [beq_iff_eq]
  omega

/-- The fact rows carrying the id of the `i`-th filtered event are exactly the
rows built from that event: one per matching catalog row. -/
theorem joinAll_filter_id (o : Int) (catalog : List CatalogRecord)
    (es : List EventRecord) (n i : Nat) (e : EventRecord)
    (h : (i, e) ∈ assignIds n es) :
    ((joinAll o catalog (assignIds n es)).filter (fun r => r.songplay_id == i)).length =
      (catalog.filter (joinCond e)).length := by
  induction es generalizing n with
  | nil => simp [assignIds] at h
  | cons e' es ih =>
    rw [assignIds] at h
    rw [assignIds, joinAll, List.filter_append, List.length_append]
    rcases List.mem_cons.mp h with h1 | h2
    · simp only [Prod.mk.injEq] at h1
      obtain ⟨rfl, rfl⟩ := h1
      rw [block_filter_id_self, joinAll_filter_id_lt o catalog es (i + 1) i (Nat.lt_succ_self i)]
      simp
    · have hgt : n + 1 ≤ i := mem_assignIds_ge es (n + 1) i e h2
      rw [block_filter_id_ne o n i e' catalog (by omega), ih (n + 1) h2]
      simp

theorem match_pos_iff (catalog : List CatalogRecord) (e : EventRecord) :
    0 < (catalog.filter (joinCond e)).length ↔ ∃ c ∈ catalog, joinCond e c = true := by
  constructor
  · intro h
    match hl : catalog.filter (joinCond e) with
    | [] => rw [hl] at h; simp at h
    | c :: t =>
      have hc : c ∈ catalog.filter (joinCond e) := hl ▸ List.mem_cons_self _ _
      exact ⟨c, (List.mem_filter.mp hc).1, (List.mem_filter.mp hc).2⟩
  · rintro ⟨c, hc, hj⟩
    exact List.length_pos.mpr (List.ne_nil_of_mem (List.mem_filter.mpr ⟨hc, hj⟩))

theorem sum_matches_le (catalog : List CatalogRecord) (es : List EventRecord)
    (h : ∀ e ∈ es, (catalog.filter (joinCond e)).length ≤ 1) :
    (es.map (fun e => (catalog.filter (joinCond e)).length)).sum ≤ es.length ∧
    ((es.map (fun e => (catalog.filter (joinCond e)).length)).sum = es.length ↔
      ∀ e ∈ es, ∃ c ∈ catalog, joinCond e c = true) := by
  induction es with
  | nil => simp
  | cons e es ih =>
    have hk : (catalog.filter (joinCond e)).length ≤ 1 := h e (List.mem_cons_self _ _)
    have iht := ih (fun e' he' => h e' (List.mem_cons_of_mem _ he'))
    rw [List.map_cons, List.sum_cons, List.length_cons]
    constructor
    · omega
    · rw [List.forall_mem_cons, ← match_pos_iff, ← iht.2]
      have hle := iht.1
      omega

/-! ### Claim theorems -/

/-- C1 (amended): the `songplay_id` values of the emitted fact table are
non-decreasing in emission order, and when every NextSong event matches at
most one catalog row they are strictly increasing with no duplicates.  (As
stated the claim fails: an event matching several catalog rows emits several
fact rows carrying the same id.) -/
theorem c1_songplay_ids_monotone (o : Int) (catalog : List CatalogRecord)
    (events : List EventRecord) :
    ((songplays_table o catalog events).map (fun r => r.songplay_id)).Pairwise (· ≤ ·) ∧
    ((∀ e ∈ filterNextSong events, (catalog.filter (joinCond e)).length ≤ 1) →
      ((songplays_table o catalog events).map (fun r => r.songplay_id)).Pairwise (· < ·) ∧
      ((songplays_table o catalog events).map (fun r => r.songplay_id)).Nodup) := by
  refine ⟨joinAll_ids_pairwise_le o catalog (filterNextSong events) 0, fun h => ?_⟩
  have hs := joinAll_ids_pairwise_lt o catalog (filterNextSong events) 0 h
  exact ⟨hs, hs.imp Nat.ne_of_lt⟩

/-- C1 witness: on the spec's one-song/one-event example every event matches
at most one catalog row, and the ids are strictly increasing. -/
theorem c1_witness :
    (∀ e ∈ filterNextSong [evFoo],
      (([catFoo] : List CatalogRecord).filter (joinCond e)).length ≤ 1) ∧
    ((songplays_table 0 [catFoo] [evFoo]).map (fun r => r.songplay_id)).Pairwise (· < ·) :=
  ⟨by decide, ((c1_songplay_ids_monotone 0 [catFoo] [evFoo]).2 (by decide)).1⟩

/-- C1 counterexample: two catalog rows share the `(artist_name, title,
duration)` join key, so the single NextSong event emits two fact rows with the
same `songplay_id`: the emitted ids `[0, 0]` are neither strictly increasing
nor duplicate-free. -/
theorem c1_cex :
    (songplays_table 0 [catFoo, catFoo2] [evFoo]).map (fun r => r.songplay_id) = [0, 0] ∧
    ¬ ((songplays_table 0 [catFoo, catFoo2] [evFoo]).map
        (fun r => r.songplay_id)).Pairwise (· < ·) ∧
    ¬ ((songplays_table 0 [catFoo, catFoo2] [evFoo]).map
        (fun r => r.songplay_id)).Nodup := by
  refine ⟨by decide, ?_, ?_⟩
  · rw [show (songplays_table 0 [catFoo, catFoo2] [evFoo]).map (fun r => r.songplay_id) =
        [0, 0] from by decide]
    decide
  · rw [show (songplays_table 0 [catFoo, catFoo2] [evFoo]).map (fun r => r.songplay_id) =
        [0, 0] from by decide]
    decide

/-- C2 (amended): when every NextSong event matches at most one catalog row,
the fact-table row count is at most the NextSong event count, with equality
exactly when every such event's `(artist, song, length)` triple matches some
catalog row.  (As stated the claim fails: an event matching several catalog
rows makes the fact table larger than the event count.) -/
theorem c2_songplays_count (o : Int) (catalog : List CatalogRecord)
    (events : List EventRecord)
    (h : ∀ e ∈ filterNextSong events, (catalog.filter (joinCond e)).length ≤ 1) :
    (songplays_table o catalog events).length ≤ (filterNextSong events).length ∧
    ((songplays_table o catalog events).length = (filterNextSong events).length ↔
      ∀ e ∈ filterNextSong events, ∃ c ∈ catalog, joinCond e c = true) := by
  rw [songplays_table, joinAll_length]
  exact sum_matches_le catalog (filterNextSong events) h

/-- C2 witness: the spec's example input satisfies the at-most-one-match
hypothesis, and there the bound and the equality condition both hold. -/
theorem c2_witness :
    (∀ e ∈ filterNextSong [evFoo],
      (([catFoo] : List CatalogRecord).filter (joinCond e)).length ≤ 1) ∧
    ((songplays_table 0 [catFoo] [evFoo]).length ≤ (filterNextSong [evFoo]).length ∧
     ((songplays_table 0 [catFoo] [evFoo]).length = (filterNextSong [evFoo]).length ↔
       ∀ e ∈ filterNextSong [evFoo], ∃ c ∈ [catFoo], joinCond e c = true)) :=
  ⟨by decide, c2_songplays_count 0 [catFoo] [evFoo] (by decide)⟩

/-- C2 counterexample: with two catalog rows sharing the join key, one
NextSong event — whose triple does match some catalog row — yields two fact
rows, so the claimed bound `|fact| ≤ |NextSong events|` is violated. -/
theorem c2_cex :
    (songplays_table 0 [catFoo, catFoo2] [evFoo]).length = 2 ∧
    (filterNextSong [evFoo]).length = 1 ∧
    (∀ e ∈ filterNextSong [evFoo],
      ∃ c ∈ ([catFoo, catFoo2] : List CatalogRecord), joinCond e c = true) := by
  decide

/-- C3: the code decomposes `ts` with `datetime.fromtimestamp`, i.e. in the
machine-local time zone: the same `ts` yields hour 1 on a UTC machine (offset
0) and hour 2 on a UTC+1 machine (offset 3600), so the decomposition is not
pinned to UTC and depends on the machine's time zone. -/
theorem c3_local_timezone_dependence :
    (timeRow 0 1541121934796).hour = 1 ∧ (timeRow 3600 1541121934796).hour = 2 ∧
    timeRow 3600 1541121934796 ≠ timeRow 0 1541121934796 := by
  refine ⟨by decide, by decide, ?_⟩
  intro h
  have := congrArg TimeRow.hour h
  rw [show (timeRow 3600 1541121934796).hour = 2 from by decide,
    show (timeRow 0 1541121934796).hour = 1 from by decide] at this
  exact absurd this (by decide)

/-- C4 (amended): the time table holds exactly one row per distinct
`start_time` — the second-resolution formatted timestamp — in first-seen
order; `ts` values falling in the same second collapse to one row.  (As
stated the claim fails: two distinct `ts` less than a second apart can share a
row.) -/
theorem c4_time_table_keys (o : Int) (events : List EventRecord) :
    ((time_table o events).map (fun t => t.start_time)).Nodup ∧
    (time_table o events).map (fun t => t.start_time) =
      distinctOn id ((filterNextSong events).map (fun e => startTime o e.ts)) := by
  refine ⟨distinctOn_map_key_nodup _ _, ?_⟩
  rw [time_table, distinctOn, distinctOn, distinctOnAux_map_key, List.map_map]
  rfl

/-- C4 counterexample: two NextSong events with distinct `ts` values 1000 ms
and 1500 ms fall in the same calendar second, and the time table has one row,
not the two distinct rows the claim requires. -/
theorem c4_cex :
    evT1.ts ≠ evT2.ts ∧ evT1.page = "NextSong" ∧ evT2.page = "NextSong" ∧
    (time_table 0 [evT1, evT2]).length = 1 := by
  decide

/-- C5: after building, every dimension key is unique: each distinct
`song_id` of the catalog has exactly one `songs` row, each distinct
`artist_id` exactly one `artists` row, and each distinct `userId` among
NextSong events exactly one `users` row (keys not present have none). -/
theorem c5_dimension_keys_unique (catalog : List CatalogRecord)
    (events : List EventRecord) (ks ka ku : String) :
    (songs_table catalog).countP (fun r => r.song_id == ks) =
      (if ks ∈ catalog.map (fun c => c.song_id) then 1 else 0) ∧
    (artists_table catalog).countP (fun r => r.artist_id == ka) =
      (if ka ∈ catalog.map (fun c => c.artist_id) then 1 else 0) ∧
    (users_table events).countP (fun r => r.userId == ku) =
      (if ku ∈ (filterNextSong events).map (fun e => e.userId) then 1 else 0) := by
  refine ⟨?_, ?_, ?_⟩
  · rw [songs_table, List.countP_map]
    exact distinctOn_countP (fun c => c.song_id) ks catalog
  · rw [artists_table, List.countP_map]
    exact distinctOn_countP (fun c => c.artist_id) ka catalog
  · rw [users_table, List.countP_map]
    exact distinctOn_countP (fun e => e.userId) ku (filterNextSong events)

/-- C6: the source's `select distinct on (key)` only guarantees one arbitrary
row per key group: for two catalog records sharing `artist_id`, both the
first-seen record and the other one are admissible outputs of the code's
query, so the code does not guarantee the first-seen, deterministic result
the claim requires (which `distinctOn` — the spec's policy — pins to the
first record). -/
theorem c6_arbitrary_pick_not_first_seen :
    IsDistinctOnContract (fun c => c.artist_id) [catFoo, catFoo2] [catFoo2] ∧
    IsDistinctOnContract (fun c => c.artist_id) [catFoo, catFoo2] [catFoo] ∧
    catFoo2 ≠ catFoo ∧
    distinctOn (fun c => c.artist_id) [catFoo, catFoo2] = [catFoo] := by
  refine ⟨⟨by decide, by decide, by decide⟩, ⟨by decide, by decide, by decide⟩,
    by decide, by decide⟩

/-- C7: an event whose `length` differs from the `duration` of every catalog
row carrying its artist and song joins no catalog row, and the fact table is
the same with or without that event: exact-equality inner-join semantics drop
it entirely. -/
theorem c7_exact_join_drops (o : Int) (catalog : List CatalogRecord)
    (es1 es2 : List EventRecord) (e : EventRecord)
    (h : ∀ c ∈ catalog, c.artist_name = e.artist → c.title = e.song →
      c.duration ≠ e.length) :
    catalog.filter (joinCond e) = [] ∧
    (songplays_table o catalog (es1 ++ e :: es2)).length =
      (songplays_table o catalog (es1 ++ es2)).length := by
  have hnil : catalog.filter (joinCond e) = [] := by
    apply List.filter_eq_nil_iff.mpr
    intro c hc
    simp only [joinCond, Bool.and_eq_true, beq_iff_eq, not_and]
    intro h1 h2
    exact h c hc h1.1.symm h1.2.symm h2.symm
  refine ⟨hnil, ?_⟩
  rw [songplays_table, songplays_table, joinAll_length, joinAll_length, filterNextSong,
    filterNextSong, List.filter_append, List.filter_append, List.filter_cons]
  by_cases hp : (e.page == "NextSong") = true
  · simp [hp, List.map_append, List.sum_append, hnil]
  · simp [hp]

/-- C7 witness: the event's `length` (210.6) differs from the only catalog
duration (210.5) by a nonzero amount, and it produces zero fact rows. -/
theorem c7_witness :
    (∀ c ∈ ([catFoo] : List CatalogRecord), c.artist_name = evFooOff.artist →
      c.title = evFooOff.song → c.duration ≠ evFooOff.length) ∧
    (([catFoo] : List CatalogRecord).filter (joinCond evFooOff) = [] ∧
     (songplays_table 0 [catFoo] ([] ++ evFooOff :: [])).length =
       (songplays_table 0 [catFoo] ([] ++ [])).length) :=
  ⟨by decide, c7_exact_join_drops 0 [catFoo] [] [] evFooOff (by decide)⟩

/-- C8: the source reads every discovered file in one bulk read with no
per-file error handling: an unreadable file aborts the whole read and no
skipped-file count exists anywhere, whereas the spec's skip-and-count reader
(modelled here as `readFilesSkip`) returns the remaining records together
with the count of skipped files. -/
theorem c8_reader_divergence :
    readJsonFiles ([some [1, 2], none, some [3]] : List (Option (List Nat))) =
      Except.error () ∧
    readFilesSkip ([some [1, 2], none, some [3]] : List (Option (List Nat))) =
      ([1, 2, 3], 1) :=
  ⟨rfl, rfl⟩

/-- C9 (amended): recombining the `(year, month, day, hour)` fields of the
decomposition of `ts` reconstructs the timestamp truncated to its local-clock
hour — within the same hour as `ts`, not within the same second. -/
theorem c9_recombine_same_hour (o : Int) (ts : Nat) (h : 0 ≤ localSecs o ts) :
    0 ≤ ((ts / 1000 : Nat) : Int) -
        recombine o (timeRow o ts).year (timeRow o ts).month (timeRow o ts).day
          (timeRow o ts).hour ∧
    ((ts / 1000 : Nat) : Int) -
        recombine o (timeRow o ts).year (timeRow o ts).month (timeRow o ts).day
          (timeRow o ts).hour < 3600 := by
  rw [recombine, daysFromCivil_timeRow, timeRow_hour]
  set A := startTime o ts with hA
  have hcast : (A : Int) = (ts / 1000 : Nat) + o := by
    rw [hA, startTime, Int.toNat_of_nonneg h, localSecs]
  have h1 : 86400 * (A / 86400) + A % 86400 = A := Nat.div_add_mod A 86400
  have h2 : 3600 * (A % 86400 / 3600) + A % 86400 % 3600 = A % 86400 :=
    Nat.div_add_mod (A % 86400) 3600
  have h3 : A % 86400 % 3600 = A % 3600 :=
    Nat.mod_mod_of_dvd A (by norm_num)
  have h4 : A % 3600 < 3600 := Nat.mod_lt A (by norm_num)
  constructor
  · push_cast
    omega
  · push_cast
    omega

/-- C9 witness: at the spec's example timestamp the reconstruction lies in
the same hour. -/
theorem c9_witness :
    0 ≤ localSecs 0 1541121934796 ∧
    (0 ≤ ((1541121934796 / 1000 : Nat) : Int) -
        recombine 0 (timeRow 0 1541121934796).year (timeRow 0 1541121934796).month
          (timeRow 0 1541121934796).day (timeRow 0 1541121934796).hour ∧
     ((1541121934796 / 1000 : Nat) : Int) -
        recombine 0 (timeRow 0 1541121934796).year (timeRow 0 1541121934796).month
          (timeRow 0 1541121934796).day (timeRow 0 1541121934796).hour < 3600) :=
  ⟨by decide, c9_recombine_same_hour 0 1541121934796 (by decide)⟩

/-- C9 counterexample: at `ts = 1800000` ms (00:30:00 on a UTC machine) the
recombination of `(year, month, day, hour)` is epoch second 0, which is 1800
seconds before the event's epoch second 1800: not within the same second. -/
theorem c9_cex :
    recombine 0 (timeRow 0 1800000).year (timeRow 0 1800000).month
        (timeRow 0 1800000).day (timeRow 0 1800000).hour = 0 ∧
    (1800000 / 1000 : Nat) = 1800 ∧
    recombine 0 (timeRow 0 1800000).year (timeRow 0 1800000).month
        (timeRow 0 1800000).day (timeRow 0 1800000).hour ≠
      ((1800000 / 1000 : Nat) : Int) := by
  refine ⟨by decide, by decide, ?_⟩
  rw [show recombine 0 (timeRow 0 1800000).year (timeRow 0 1800000).month
      (timeRow 0 1800000).day (timeRow 0 1800000).hour = 0 from by decide]
  decide

/-- C10: every event that matches `k` catalog rows contributes exactly `k`
fact rows, and they all carry that event's pre-join `songplay_id`: the rows of
the fact table whose id is the one assigned to the event number exactly the
event's catalog matches. -/
theorem c10_shared_id_per_event (o : Int) (catalog : List CatalogRecord)
    (events : List EventRecord) (i : Nat) (e : EventRecord)
    (h : (i, e) ∈ assignIds 0 (filterNextSong events)) :
    ((songplays_table o catalog events).filter (fun r => r.songplay_id == i)).length =
      (catalog.filter (joinCond e)).length :=
  joinAll_filter_id o catalog (filterNextSong events) 0 i e h

/-- C10 witness: the event matches both catalog rows (`k = 2`) and exactly
two fact rows carry its id 0. -/
theorem c10_witness :
    ((0, evFoo) ∈ assignIds 0 (filterNextSong [evFoo])) ∧
    ((songplays_table 0 [catFoo, catFoo2] [evFoo]).filter
        (fun r => r.songplay_id == 0)).length = 2 ∧
    (([catFoo, catFoo2] : List CatalogRecord).filter (joinCond evFoo)).length = 2 :=
  ⟨by decide,
    (c10_shared_id_per_event 0 [catFoo, catFoo2] [evFoo] 0 evFoo (by decide)).trans
      (by decide),
    by decide⟩
